import Mathlib

/-!
Shallow embedding of the resume-analyzer backend core pipeline:
file validation, text extraction dispatch, whitespace normalization,
AI analysis client with its ATS-score parser, persistence validation,
and the history/download read endpoints.

External effects (the network call, the filesystem, the document parsers
and the database) are modelled as explicit outcome parameters; the code's
control flow, string processing and parsing logic are translated directly
from the JavaScript source.
-/

namespace ResumeAnalyzer

/-- Whitespace class of the JavaScript regular-expression `\s` (also the
set trimmed by `String.prototype.trim`): ASCII whitespace plus the Unicode
space separators, line/paragraph separators and the BOM. -/
def isJsWhitespace (c : Char) : Bool :=
  c = ' ' || c = '\t' || c = '\n' || c = '\r' ||
  c = '\x0b' || c = '\x0c' ||
  c = '\u00a0' || c = '\u1680' ||
  ('\u2000' ≤ c && c ≤ '\u200a') ||
  c = '\u2028' || c = '\u2029' || c = '\u202f' || c = '\u205f' || c = '\u3000' ||
  c = '\ufeff'

/-- Case-insensitive match of the literal `pat` at the start of `s`
(ASCII case folding, as the regex `i` flag performs on ASCII literals);
returns the rest of `s` on success. -/
def matchLit : List Char → List Char → Option (List Char)
  | [], s => some s
  | _ :: _, [] => none
  | p :: ps, c :: cs => if p.toLower = c.toLower then matchLit ps cs else none

/-- Match of the regex tail `:\s*(\d+(\.\d+)?)\/10` immediately after the
literal colon has been consumed is folded into `scoreSuffix`; this function
matches `\s*(\d+(\.\d+)?)\/10` and returns the text of capturing group 1.
Greedy quantifiers over the disjoint classes `\s`, `\d` and the literal
`/10` make backtracking equivalent to taking maximal runs. -/
def numSlash10 (s : List Char) : Option (List Char) :=
  let s1 := s.dropWhile isJsWhitespace
  let d := s1.takeWhile Char.isDigit
  let s2 := s1.dropWhile Char.isDigit
  if d = [] then none
  else
    match s2 with
    | '.' :: s3 =>
      let f := s3.takeWhile Char.isDigit
      let s4 := s3.dropWhile Char.isDigit
      if f = [] then none
      else (matchLit "/10".data s4).map (fun _ => d ++ '.' :: f)
    | _ => (matchLit "/10".data s2).map (fun _ => d)

/-- Match of the regex part `(?:Score|Rating):\s*(\d+(\.\d+)?)\/10`
at the start of `s`, returning capturing group 1. -/
def scoreSuffix (s : List Char) : Option (List Char) :=
  (match matchLit "Score:".data s with
   | some r => some r
   | none => matchLit "Rating:".data s).bind numSlash10

/-- Match, at the start of `s`, of the controller's regex
`/ATS Compatibility (?:Score|Rating):\s*(\d+(\.\d+)?)\/10/i`
(src/controllers/resumeController.js line 48), returning group 1. -/
def matchAtCtrl (s : List Char) : Option (List Char) :=
  (matchLit "ATS Compatibility ".data s).bind scoreSuffix

/-- Match, at the start of `s`, of the variant regex
`/ATS(?: Compatibility)? (?:Score|Rating):\s*(\d+(\.\d+)?)\/10/i`
found in the copy of the controller kept in src/app.js (line 87), where
`Compatibility` is optional; the greedy optional group is tried first. -/
def matchAtApp (s : List Char) : Option (List Char) :=
  match (matchLit "ATS Compatibility ".data s).bind scoreSuffix with
  | some g => some g
  | none => (matchLit "ATS ".data s).bind scoreSuffix

/-- Leftmost-match search of `String.prototype.match` with a non-global
regex: the first position whose match attempt succeeds wins. -/
def scanForScore (matchAt : List Char → Option (List Char)) : List Char → Option (List Char)
  | [] => none
  | c :: cs =>
    match matchAt (c :: cs) with
    | some g => some g
    | none => scanForScore matchAt cs

/-- Numeric value of a digit character. -/
def digitVal (c : Char) : Nat := c.toNat - '0'.toNat

/-- Decimal value of a digit run. -/
def digitsToNat (l : List Char) : Nat :=
  l.foldl (fun n c => 10 * n + digitVal c) 0

/-- JavaScript `parseFloat` on the captured group, which by construction is
`digits` or `digits.digits`; the value is exact here (a rational), which
agrees with `parseFloat` on all groups short enough to be exact doubles. -/
def parseFloatQ (g : List Char) : ℚ :=
  let d := g.takeWhile Char.isDigit
  let rest := g.dropWhile Char.isDigit
  match rest with
  | '.' :: f => (digitsToNat d : ℚ) + (digitsToNat f : ℚ) / 10 ^ f.length
  | _ => (digitsToNat d : ℚ)

/-- Score parser of the controller actually wired into the routes
(src/controllers/resumeController.js lines 45-64): run the regex, and when
it matches take `parseFloat` of group 1, otherwise `null`. -/
def parseAtsScore (content : String) : Option ℚ :=
  (scanForScore matchAtCtrl content.data).map parseFloatQ

/-- Score parser of the controller copy kept in src/app.js (lines 86-102),
identical except that ` Compatibility` is optional in the regex. -/
def parseAtsScoreApp (content : String) : Option ℚ :=
  (scanForScore matchAtApp content.data).map parseFloatQ

/-- Outcome of the axios call to the chat-completions endpoint as the
`try` block of `analyzeWithAI` observes it: either a 2xx response whose
body yields `choices[0].message.content`, or any failure (non-2xx status,
connection error, or a malformed body that throws while the content is
read — all of which land in the same `catch`). -/
inductive AIOutcome where
  | success (content : String)
  | failure
  deriving DecidableEq, Repr

/-- Result shape returned by `analyzeWithAI`: the feedback text and the
optional parsed ATS score. -/
structure AnalysisResult where
  analysis : String
  atsScore : Option ℚ
  deriving DecidableEq, Repr

/-- Sentinel feedback returned by `analyzeWithAI` when the AI call fails
(src/controllers/resumeController.js lines 92-96). -/
def placeholderFeedback : String :=
  "Error: Could not retrieve AI analysis due to an API failure. Please check backend logs."

/-- The controller's `analyzeWithAI` (src/controllers/resumeController.js
lines 9-98): on success the response content is the feedback and the score
is parsed from it; on any failure the function catches, logs, and returns
the sentinel result. The JavaScript guard `if (match && match[1])` always
holds when the regex matches, because group 1 requires at least one digit.
`resumeText` and `jobRole` enter only the prompt, not the result. -/
def analyzeWithAI (resumeText jobRole : String) (outcome : AIOutcome) : AnalysisResult :=
  match resumeText, jobRole, outcome with
  | _, _, .success content => { analysis := content, atsScore := parseAtsScore content }
  | _, _, .failure => { analysis := placeholderFeedback, atsScore := none }

end ResumeAnalyzer


namespace ResumeAnalyzer

/-- One pass of `String.prototype.replace(/\s+/g, " ")`: each maximal run
of whitespace is replaced by a single ASCII space. The flag records
whether the previous character belonged to a whitespace run already
replaced. -/
def collapseAux (prevWS : Bool) : List Char → List Char
  | [] => []
  | c :: cs =>
    if isJsWhitespace c then
      if prevWS then collapseAux true cs
      else ' ' :: collapseAux true cs
    else c :: collapseAux false cs

/-- The whole `replace(/\s+/g, " ")` call. -/
def collapseWS (l : List Char) : List Char :=
  collapseAux false l

/-- Leading-whitespace removal of `String.prototype.trim`. -/
def dropLeadingWS (l : List Char) : List Char :=
  l.dropWhile isJsWhitespace

/-- `String.prototype.trim` on a character list: drop whitespace from both
ends. -/
def trimWS (l : List Char) : List Char :=
  ((dropLeadingWS l).reverse.dropWhile isJsWhitespace).reverse

/-- The controller's text cleaning `resumeText.replace(/\s+/g, " ").trim()`
(src/controllers/resumeController.js line 165). -/
def normalizeText (s : String) : String :=
  ⟨trimWS (collapseWS s.data)⟩

/-- `String.prototype.trim` on strings, as mongoose's `trim: true` option
applies to a string path before validation and storage. -/
def trimJS (s : String) : String :=
  ⟨trimWS s.data⟩

/-- Lowercased `path.extname` of the declared file name
(src/controllers/resumeController.js line 122): the suffix from the last
dot on, empty when there is no dot or the only dot starts the name.
The declared name is assumed to contain no path separators. -/
def extnameLower (name : String) : String :=
  let cs := name.data
  let rev := cs.reverse
  let pre := rev.takeWhile (fun c => c ≠ '.')
  if rev.contains '.' && pre.length + 1 ≠ cs.length then
    ⟨('.' :: pre.reverse).map Char.toLower⟩
  else ""

/-- Case-sensitive match of `pat` at the start of `s`, as the flagless
regex `/pdf|doc|docx/` compares characters. -/
def startsWithExact : List Char → List Char → Bool
  | [], _ => true
  | _ :: _, [] => false
  | p :: ps, c :: cs => p = c && startsWithExact ps cs

/-- JavaScript `/pdf|doc|docx/.test(s)`: the regex matches anywhere in the
string, so the test holds exactly when `s` contains `pdf` or `doc` (a
`docx` occurrence contains `doc`). -/
def hasSubList (pat : List Char) : List Char → Bool
  | [] => startsWithExact pat []
  | c :: cs => startsWithExact pat (c :: cs) || hasSubList pat cs

/-- The multer `fileFilter` of src/routes/resume.js lines 62-74: both the
declared media type and the lowercased declared extension must match
`/pdf|doc|docx/` for the upload to be accepted; otherwise multer rejects
the file before the controller runs. -/
def fileFilter (mimetype originalname : String) : Bool :=
  (hasSubList "pdf".data mimetype.data || hasSubList "doc".data mimetype.data)
  &&
  (hasSubList "pdf".data (extnameLower originalname).data ||
   hasSubList "doc".data (extnameLower originalname).data)

/-- Which document parser the controller dispatches to. -/
inductive ParserKind where
  | pdfParse
  | mammoth
  deriving DecidableEq, Repr

/-- Observable steps of one `handleResumeUpload` run, in order: the
extraction attempt returning or throwing, the `fs.unlink` of the temporary
file, the empty-text warning log, the call into `analyzeWithAI`, and the
`ResumeAnalysis.create` call. -/
inductive Event where
  | extractDone (parser : ParserKind) (ok : Bool)
  | deleteTemp
  | warnEmptyText
  | aiCall
  | persistAttempt
  deriving DecidableEq, Repr

/-- Outcome of the document parser on the uploaded bytes: the extracted
raw text, or a thrown decode error. -/
inductive ExtractionOutcome where
  | ok (text : String)
  | err
  deriving DecidableEq, Repr

/-- The multer-populated `req.file` data the controller reads. -/
structure FileInfo where
  originalname : String
  deriving DecidableEq, Repr

/-- One request together with the behavior of its external collaborators:
the uploaded file (if any), the optional job-role field, what the document
parser would yield, what the AI call would yield, the authenticated user
id, the store-assigned record id and the creation timestamp. -/
structure UploadEnv where
  file : Option FileInfo
  jobRoleField : Option String
  extraction : ExtractionOutcome
  aiOutcome : AIOutcome
  userId : String
  newId : String
  now : Nat
  deriving DecidableEq, Repr

/-- The JSON responses `handleResumeUpload` can send. -/
inductive UploadResponse where
  | noFile
  | unsupported
  | ok (jobRole analysis : String) (atsScore : Option ℚ) (analysisId : String)
  | serverError
  deriving DecidableEq, Repr

/-- A persisted `ResumeAnalysis` document (src/models/ResumeAnalysis.js). -/
structure ResumeRecord where
  id : String
  fileName : String
  jobRole : String
  resumeText : String
  aiFeedback : String
  atsScore : Option ℚ
  user : String
  createdAt : Nat
  deriving DecidableEq, Repr

/-- The `atsScore` path validators of the schema: `min: 0`, `max: 10`,
skipped when the value is null. -/
def validAtsScore : Option ℚ → Bool
  | none => true
  | some q => decide ((0 : ℚ) ≤ q) && decide (q ≤ (10 : ℚ))

/-- Mongoose validation of `ResumeAnalysisSchema` as `create` runs it:
every `required` string path must be a non-empty string (`fileName` and
`jobRole` after their `trim: true`), `atsScore` must be null or within
[0, 10], and the required `user` reference must be present (modelled as a
non-empty id). -/
def validRecord (r : ResumeRecord) : Bool :=
  r.fileName ≠ "" && r.jobRole ≠ "" && r.resumeText ≠ "" && r.aiFeedback ≠ "" &&
  validAtsScore r.atsScore && r.user ≠ ""

/-- The document `ResumeAnalysis.create` assembles from the controller's
locals (src/controllers/resumeController.js lines 187-194), with the
schema's `trim: true` applied to `fileName` and `jobRole`. -/
def mkUploadRecord (env : UploadEnv) (f : FileInfo) (resumeText : String)
    (ar : AnalysisResult) : ResumeRecord :=
  { id := env.newId
    fileName := trimJS f.originalname
    jobRole := trimJS (env.jobRoleField.getD "Frontend Developer")
    resumeText := resumeText
    aiFeedback := ar.analysis
    atsScore := ar.atsScore
    user := env.userId
    createdAt := env.now }

/-- The record a run with file `f` and extracted raw text `raw` submits to
the store. -/
def uploadRecordOf (env : UploadEnv) (f : FileInfo) (raw : String) : ResumeRecord :=
  mkUploadRecord env f (normalizeText raw)
    (analyzeWithAI (normalizeText raw) (env.jobRoleField.getD "Frontend Developer")
      env.aiOutcome)

/-- Everything observable about one `handleResumeUpload` run: the ordered
events, the records the store created, and the response sent. -/
structure UploadRun where
  events : List Event
  created : List ResumeRecord
  response : UploadResponse
  deriving DecidableEq, Repr

/-- The orchestrator `handleResumeUpload`
(src/controllers/resumeController.js lines 101-234). Paths:
no file → 400; unsupported extension → temp file deleted, 400; parser
throws → the `catch` block deletes the temp file, 500; parse succeeds →
temp file deleted before anything else, text normalized (empty text only
logs a warning), `analyzeWithAI` called, one `create` attempted — a
validation failure there lands in the `catch` (file already gone), 500;
otherwise the success response. -/
def handleResumeUpload (env : UploadEnv) : UploadRun :=
  match env.file with
  | none => { events := [], created := [], response := .noFile }
  | some f =>
    let jobRole := env.jobRoleField.getD "Frontend Developer"
    let ext := extnameLower f.originalname
    if ext = ".pdf" ∨ ext = ".docx" then
      let parser := if ext = ".pdf" then ParserKind.pdfParse else ParserKind.mammoth
      match env.extraction with
      | .err =>
        { events := [.extractDone parser false, .deleteTemp]
          created := []
          response := .serverError }
      | .ok raw =>
        let resumeText := normalizeText raw
        let warnEvs : List Event := if resumeText = "" then [.warnEmptyText] else []
        let ar := analyzeWithAI resumeText jobRole env.aiOutcome
        let record0 := mkUploadRecord env f resumeText ar
        let evs := .extractDone parser true :: .deleteTemp :: warnEvs ++ [.aiCall, .persistAttempt]
        if validRecord record0 then
          { events := evs
            created := [record0]
            response := .ok jobRole ar.analysis ar.atsScore env.newId }
        else
          { events := evs, created := [], response := .serverError }
    else
      { events := [.deleteTemp], created := [], response := .unsupported }

/-- Holds when, in the event list, every completed extraction attempt is
immediately followed by the deletion of the temporary file. -/
def deleteImmediatelyFollowsExtract : List Event → Bool
  | [] => true
  | .extractDone _ _ :: rest =>
    (match rest with
     | .deleteTemp :: _ => true
     | _ => false) && deleteImmediatelyFollowsExtract rest
  | _ :: rest => deleteImmediatelyFollowsExtract rest

/-- Auxiliary scan: every `aiCall` event must come after a `deleteTemp`
event; the flag records whether a deletion was already seen. -/
def aiAfterDeleteAux (seen : Bool) : List Event → Bool
  | [] => true
  | .deleteTemp :: rest => aiAfterDeleteAux true rest
  | .aiCall :: rest => seen && aiAfterDeleteAux seen rest
  | _ :: rest => aiAfterDeleteAux seen rest

/-- Holds when every AI invocation in the run comes after the temporary
file was deleted. -/
def aiPrecededByDelete (evs : List Event) : Bool :=
  aiAfterDeleteAux false evs

end ResumeAnalyzer

namespace ResumeAnalyzer

/-- Mongo's `find({user}).sort({createdAt: -1})` is modelled by a stable
insertion into a list sorted by descending creation time. -/
def insertDesc (x : ResumeRecord) : List ResumeRecord → List ResumeRecord
  | [] => [x]
  | y :: ys =>
    if x.createdAt ≤ y.createdAt then y :: insertDesc x ys
    else x :: y :: ys

/-- Stable sort of the store's answer, newest first. -/
def sortDesc : List ResumeRecord → List ResumeRecord
  | [] => []
  | x :: xs => insertDesc x (sortDesc xs)

/-- The history query of src/routes/resume.js lines 111-114: records whose
`user` equals the requesting identity, newest first. -/
def historyQuery (store : List ResumeRecord) (userId : String) : List ResumeRecord :=
  sortDesc (store.filter (fun r => r.user = userId))

/-- Projection of the `.select("fileName jobRole createdAt atsScore
aiFeedback")` clause. -/
structure HistoryItem where
  fileName : String
  jobRole : String
  createdAt : Nat
  atsScore : Option ℚ
  aiFeedback : String
  deriving DecidableEq, Repr

/-- The `/history` handler body: query, then project the selected fields. -/
def historyHandler (store : List ResumeRecord) (userId : String) : List HistoryItem :=
  (historyQuery store userId).map fun r =>
    { fileName := r.fileName
      jobRole := r.jobRole
      createdAt := r.createdAt
      atsScore := r.atsScore
      aiFeedback := r.aiFeedback }

/-- Hexadecimal digit test for ObjectId syntax. -/
def isHexDigit (c : Char) : Bool :=
  c.isDigit || ('a' ≤ c && c ≤ 'f') || ('A' ≤ c && c ≤ 'F')

/-- Syntactic validity of a store identifier, as mongoose accepts a string
for an ObjectId cast: a 24-character hexadecimal string (or a 12-character
raw string). `findById` throws a `CastError` on anything else. -/
def validObjectId (s : String) : Bool :=
  (s.length = 24 && s.data.all isHexDigit) || s.length = 12

/-- `ResumeAnalysis.findById(id)`: throws (modelled as `Except.error`) when
the id does not cast to an ObjectId, otherwise the record with that id, if
any. -/
def findById (store : List ResumeRecord) (rid : String) :
    Except Unit (Option ResumeRecord) :=
  if validObjectId rid then .ok (store.find? (fun r => r.id = rid)) else .error ()

/-- Responses of the `/download/:id` handler. -/
inductive DownloadResponse where
  | notFound
  | pdfReport (fileName jobRole : String) (createdAt : Nat) (atsScore : Option ℚ)
      (aiFeedback : String)
  | pdfError
  deriving DecidableEq, Repr

/-- The `/download/:id` handler of src/routes/resume.js lines 129-201:
a lookup failure inside the `try` lands in the `catch` (500, "Failed to
generate PDF report"); a missing record or one owned by someone else gets
the same 404 ("Resume analysis not found"); otherwise the PDF report is
rendered from the record's fields. -/
def downloadHandler (store : List ResumeRecord) (userId rid : String) :
    DownloadResponse :=
  match findById store rid with
  | .error _ => .pdfError
  | .ok none => .notFound
  | .ok (some r) =>
    if r.user ≠ userId then .notFound
    else .pdfReport r.fileName r.jobRole r.createdAt r.atsScore r.aiFeedback

end ResumeAnalyzer

namespace ResumeAnalyzer

/-- A pdf upload whose extraction succeeds and whose AI call fails. -/
def envPdfFail : UploadEnv :=
  { file := some { originalname := "resume.pdf" }
    jobRoleField := some "Backend Engineer"
    extraction := .ok "Hello World"
    aiOutcome := .failure
    userId := "u1"
    newId := "id1"
    now := 3 }

/-- A pdf upload whose extracted text is whitespace only. -/
def envEmptyText : UploadEnv :=
  { file := some { originalname := "resume.pdf" }
    jobRoleField := none
    extraction := .ok " "
    aiOutcome := .failure
    userId := "u2"
    newId := "id2"
    now := 0 }

/-- An upload declaring the `.doc` extension. -/
def envDoc : UploadEnv :=
  { file := some { originalname := "resume.doc" }
    jobRoleField := none
    extraction := .ok "text"
    aiOutcome := .success "ok"
    userId := "u3"
    newId := "id3"
    now := 1 }

/-- A stored record owned by user u1. -/
def recA : ResumeRecord :=
  { id := "507f1f77bcf86cd799439011"
    fileName := "a.pdf"
    jobRole := "Dev"
    resumeText := "text a"
    aiFeedback := "fb a"
    atsScore := none
    user := "u1"
    createdAt := 10 }

/-- A stored record owned by user u2. -/
def recB : ResumeRecord :=
  { id := "507f1f77bcf86cd799439022"
    fileName := "b.pdf"
    jobRole := "Dev"
    resumeText := "text b"
    aiFeedback := "fb b"
    atsScore := none
    user := "u2"
    createdAt := 20 }

/-- A store holding one record of each user. -/
def storeW : List ResumeRecord := [recA, recB]

end ResumeAnalyzer

namespace ResumeAnalyzer

theorem parseFloatQ_nonneg (g : List Char) : 0 ≤ parseFloatQ g := by
  unfold parseFloatQ
  dsimp only
  split
  · positivity
  · positivity

theorem parseAtsScore_nonneg (s : String) (q : ℚ) (h : parseAtsScore s = some q) :
    0 ≤ q := by
  unfold parseAtsScore at h
  cases hs : scanForScore matchAtCtrl s.data with
  | none => rw [hs] at h; simp at h
  | some g => rw [hs] at h; simp at h; rw [← h]; exact parseFloatQ_nonneg g

theorem parseAtsScore_half_eval :
    parseAtsScore "ATS Compatibility Rating: 8.5/10" = some (17 / 2) := by
  have h1 : scanForScore matchAtCtrl "ATS Compatibility Rating: 8.5/10".data =
      some ['8', '.', '5'] := by decide
  have h2 : parseFloatQ ['8', '.', '5'] =
      ((8 : Nat) : ℚ) + ((5 : Nat) : ℚ) / 10 ^ (1 : Nat) := rfl
  unfold parseAtsScore
  rw [h1, Option.map_some', h2]
  norm_num

/-- C1: for every resumeText and jobRole, `analyzeWithAI` never raises to
its caller — it is a total function into `AnalysisResult` — and on any
failure of the network call it returns a result with a null `atsScore` and
the non-empty deterministic placeholder feedback string. -/
theorem analyzeWithAI_failure_sentinel (resumeText jobRole : String) :
    analyzeWithAI resumeText jobRole .failure =
      { analysis := "Error: Could not retrieve AI analysis due to an API failure. Please check backend logs."
        atsScore := none } ∧
    placeholderFeedback ≠ "" ∧
    (analyzeWithAI resumeText jobRole .failure).analysis = placeholderFeedback :=
  ⟨rfl, by decide, rfl⟩

/-- C2: the claim describes the score parser as accepting "ATS" optionally
followed by "Compatibility" (so that "ATS Score: 7/10" yields 7.0) —
exactly the format the controller's own prompt requests — but the regex
wired into the routes requires the word "Compatibility", so the prompted
format "ATS Score: 7/10" parses to null. The variant of the controller
kept in src/app.js carries the regex with optional "Compatibility" and
yields 7 on the same input. On "ATS Compatibility Rating: 8.5/10" the
wired parser does return 8.5, and with no score phrase it returns null. -/
theorem atsRegex_contradicts_prompt_format :
    parseAtsScore "ATS Score: 7/10" = none ∧
    parseAtsScoreApp "ATS Score: 7/10" = some 7 ∧
    parseAtsScore "ATS Compatibility Rating: 8.5/10" = some (17 / 2) ∧
    parseAtsScore "Plenty of feedback but no score phrase." = none :=
  ⟨by decide, by decide, parseAtsScore_half_eval, by decide⟩

/-- C6 counterexample: the claim says the `AnalysisResult` of
`analyzeWithAI` always has `atsScore` null or within [0, 10] and a
non-empty `feedbackText`; but the parser does not clamp, so the response
text "ATS Compatibility Score: 15/10" yields a score of 15 > 10, and an
empty successful response content yields an empty feedback text. -/
theorem analysisResult_invariant_cx :
    (analyzeWithAI "r" "j" (.success "ATS Compatibility Score: 15/10")).atsScore =
      some 15 ∧
    ¬ ((15 : ℚ) ≤ 10) ∧
    (analyzeWithAI "r" "j" (.success "")).analysis = "" :=
  ⟨by decide, by norm_num, rfl⟩

/-- C6 amended: for every AI response outcome, the `atsScore` of the
`AnalysisResult` is either null or a nonnegative value (the parser does
not clamp above, so it may exceed 10); the feedback text equals the
response content on success (hence is empty only when the content is) and
is the non-empty placeholder on failure. -/
theorem analysisResult_invariant_amended (resumeText jobRole : String) (o : AIOutcome) :
    (∀ q, (analyzeWithAI resumeText jobRole o).atsScore = some q → 0 ≤ q) ∧
    (o = .failure →
      (analyzeWithAI resumeText jobRole o).analysis = placeholderFeedback ∧
      placeholderFeedback ≠ "") ∧
    (∀ c, o = .success c → (analyzeWithAI resumeText jobRole o).analysis = c) := by
  refine ⟨?_, ?_, ?_⟩
  · intro q hq
    cases o with
    | success content =>
      exact parseAtsScore_nonneg content q hq
    | failure => simp [analyzeWithAI] at hq
  · rintro rfl
    exact ⟨rfl, by decide⟩
  · rintro c rfl
    rfl

/-- Witness for the amended C6 invariant at concrete inputs. -/
theorem analysisResult_invariant_amended_witness :
    (0 : ℚ) ≤ 17 / 2 ∧ (analyzeWithAI "a" "b" .failure).analysis = placeholderFeedback :=
  ⟨(analysisResult_invariant_amended "a" "b"
      (.success "ATS Compatibility Rating: 8.5/10")).1 (17 / 2) parseAtsScore_half_eval,
   ((analysisResult_invariant_amended "a" "b" .failure).2.1 rfl).1⟩

end ResumeAnalyzer

namespace ResumeAnalyzer

/-- C4: for every upload that carries a file, every completed extraction
attempt (success or thrown decode error) is immediately followed by the
deletion of the temporary file, every AI invocation happens only after the
temporary file was deleted, and the run always ends with the temporary
file deleted — so after the extraction step completes the file never
exists, whether AI analysis later succeeds or degrades. -/
theorem tempfile_deleted_on_extraction_boundary (env : UploadEnv) (f : FileInfo)
    (h : env.file = some f) :
    deleteImmediatelyFollowsExtract (handleResumeUpload env).events = true ∧
    aiPrecededByDelete (handleResumeUpload env).events = true ∧
    Event.deleteTemp ∈ (handleResumeUpload env).events := by
  unfold handleResumeUpload
  rw [h]
  dsimp only
  split
  · cases hx : env.extraction with
    | err => exact ⟨rfl, rfl, by simp⟩
    | ok raw =>
      dsimp only
      split <;> split <;> split <;> exact ⟨rfl, rfl, by simp⟩
  · exact ⟨rfl, rfl, by simp⟩

/-- Witness for C4 at a concrete pdf upload with a failing AI call. -/
theorem tempfile_deleted_on_extraction_boundary_witness :
    deleteImmediatelyFollowsExtract (handleResumeUpload envPdfFail).events = true ∧
    aiPrecededByDelete (handleResumeUpload envPdfFail).events = true ∧
    Event.deleteTemp ∈ (handleResumeUpload envPdfFail).events :=
  tempfile_deleted_on_extraction_boundary envPdfFail { originalname := "resume.pdf" } rfl

/-- C3 counterexample: the claim promises that every upload whose
extraction succeeds creates exactly one record, but an upload whose
extracted text is whitespace-only reaches persistence and then fails the
schema's required-string validation: no record is created and the
response is the 500-equivalent failure. -/
theorem upload_creates_record_cx :
    (handleResumeUpload envEmptyText).events.count .persistAttempt = 1 ∧
    (handleResumeUpload envEmptyText).created = [] ∧
    (handleResumeUpload envEmptyText).response = .serverError := by
  exact ⟨by decide, by decide, by decide⟩

/-- C3 amended: for every upload whose extraction succeeds, the pipeline
always reaches persistence — exactly one record creation is attempted even
when the AI call fails — at most one record is created, exactly one record
is created whenever the assembled record passes schema validation, and in
the AI-failure case the assembled record has a null score and the
placeholder feedback string. -/
theorem upload_reaches_persistence_amended (env : UploadEnv) (f : FileInfo) (raw : String)
    (hf : env.file = some f)
    (hext : extnameLower f.originalname = ".pdf" ∨ extnameLower f.originalname = ".docx")
    (hex : env.extraction = .ok raw) :
    (handleResumeUpload env).events.count .persistAttempt = 1 ∧
    (handleResumeUpload env).created.length ≤ 1 ∧
    (validRecord (uploadRecordOf env f raw) = true →
      (handleResumeUpload env).created = [uploadRecordOf env f raw]) ∧
    (env.aiOutcome = .failure →
      (uploadRecordOf env f raw).atsScore = none ∧
      (uploadRecordOf env f raw).aiFeedback = placeholderFeedback) := by
  unfold handleResumeUpload
  rw [hf]
  dsimp only
  rw [if_pos hext, hex]
  dsimp only
  refine ⟨?_, ?_, ?_, ?_⟩
  · split <;> split <;> split <;> rfl
  · split <;> simp
  · intro hv
    simp only [uploadRecordOf] at hv
    rw [if_pos hv]
    rfl
  · intro hai
    unfold uploadRecordOf mkUploadRecord analyzeWithAI
    rw [hai]
    exact ⟨rfl, rfl⟩

/-- Witness for the amended C3 at a concrete pdf upload whose AI call
fails: the degraded record is stored. -/
theorem upload_reaches_persistence_amended_witness :
    (handleResumeUpload envPdfFail).events.count .persistAttempt = 1 ∧
    (handleResumeUpload envPdfFail).created =
      [uploadRecordOf envPdfFail { originalname := "resume.pdf" } "Hello World"] ∧
    (uploadRecordOf envPdfFail { originalname := "resume.pdf" } "Hello World").atsScore =
      none := by
  have h := upload_reaches_persistence_amended envPdfFail
    { originalname := "resume.pdf" } "Hello World" rfl (Or.inl rfl) rfl
  exact ⟨h.1, h.2.2.1 (by decide), (h.2.2.2 rfl).1⟩

/-- C5 counterexample: the claim places `.doc` in the allow-set with a
shared DOC/DOCX extraction path, but an upload declaring `resume.doc`
never reaches an extraction parser: the controller answers the
400-equivalent unsupported-type error, persists nothing, and only deletes
the temporary file — and the route's multer filter already rejects a real
`.doc` upload because its `application/msword` media type fails the
`/pdf|doc|docx/` test. -/
theorem doc_extension_rejected_cx :
    (handleResumeUpload envDoc).response = .unsupported ∧
    (handleResumeUpload envDoc).created = [] ∧
    (handleResumeUpload envDoc).events = [.deleteTemp] ∧
    fileFilter "application/msword" "resume.doc" = false := by
  exact ⟨by decide, by decide, by decide, by decide⟩

/-- C5 amended: extraction proceeds exactly for the pdf extension (via the
PDF text-layer parser) and the docx extension (via the structured-document
extractor); every other declared extension — `.doc` included — is answered
with the 400-equivalent unsupported-type error, no record is persisted and
no extraction parser runs. -/
theorem extension_allowset_amended (env : UploadEnv) (f : FileInfo)
    (hf : env.file = some f) :
    (extnameLower f.originalname = ".pdf" →
      ∃ b, Event.extractDone .pdfParse b ∈ (handleResumeUpload env).events) ∧
    (extnameLower f.originalname = ".docx" →
      ∃ b, Event.extractDone .mammoth b ∈ (handleResumeUpload env).events) ∧
    (¬ (extnameLower f.originalname = ".pdf" ∨ extnameLower f.originalname = ".docx") →
      (handleResumeUpload env).response = .unsupported ∧
      (handleResumeUpload env).created = [] ∧
      ∀ p b, Event.extractDone p b ∉ (handleResumeUpload env).events) := by
  unfold handleResumeUpload
  rw [hf]
  dsimp only
  refine ⟨?_, ?_, ?_⟩
  · intro hp
    rw [if_pos (Or.inl hp), hp]
    rw [if_pos rfl]
    cases hx : env.extraction with
    | err => exact ⟨false, by simp⟩
    | ok raw =>
      dsimp only
      split <;> split <;> exact ⟨true, by simp⟩
  · intro hd
    rw [if_pos (Or.inr hd), hd]
    rw [if_neg (by decide)]
    cases hx : env.extraction with
    | err => exact ⟨false, by simp⟩
    | ok raw =>
      dsimp only
      split <;> split <;> exact ⟨true, by simp⟩
  · intro hn
    rw [if_neg hn]
    exact ⟨rfl, rfl, by intro p b; simp⟩

/-- Witness for the amended C5 at a concrete pdf upload and the concrete
`.doc` upload. -/
theorem extension_allowset_amended_witness :
    (∃ b, Event.extractDone .pdfParse b ∈ (handleResumeUpload envPdfFail).events) ∧
    (handleResumeUpload envDoc).response = .unsupported := by
  refine ⟨(extension_allowset_amended envPdfFail { originalname := "resume.pdf" } rfl).1
      rfl, ?_⟩
  exact ((extension_allowset_amended envDoc { originalname := "resume.doc" } rfl).2.2
      (by decide)).1

/-- C9: for every upload whose extracted text normalizes to the empty
string, the orchestrator logs the empty-text warning and still invokes the
AI client, but the record then fails the schema's required-string
validation on `resumeText`, so no record is persisted and the response is
the 500-equivalent failure. -/
theorem empty_text_fails_required_validation (env : UploadEnv) (f : FileInfo) (raw : String)
    (hf : env.file = some f)
    (hext : extnameLower f.originalname = ".pdf" ∨ extnameLower f.originalname = ".docx")
    (hex : env.extraction = .ok raw)
    (hempty : normalizeText raw = "") :
    Event.warnEmptyText ∈ (handleResumeUpload env).events ∧
    Event.aiCall ∈ (handleResumeUpload env).events ∧
    (handleResumeUpload env).created = [] ∧
    (handleResumeUpload env).response = .serverError := by
  unfold handleResumeUpload
  rw [hf]
  dsimp only
  rw [if_pos hext, hex]
  dsimp only
  rw [hempty]
  have hv : validRecord (mkUploadRecord env f ""
      (analyzeWithAI "" (env.jobRoleField.getD "Frontend Developer") env.aiOutcome)) =
      false := by
    simp [validRecord, mkUploadRecord]
  rw [if_pos rfl, if_neg (by simp [hv])]
  exact ⟨by simp, by simp, rfl, rfl⟩

/-- Witness for C9 at a concrete pdf upload with whitespace-only text. -/
theorem empty_text_fails_required_validation_witness :
    Event.warnEmptyText ∈ (handleResumeUpload envEmptyText).events ∧
    Event.aiCall ∈ (handleResumeUpload envEmptyText).events ∧
    (handleResumeUpload envEmptyText).created = [] ∧
    (handleResumeUpload envEmptyText).response = .serverError :=
  empty_text_fails_required_validation envEmptyText { originalname := "resume.pdf" } " "
    rfl (Or.inl rfl) rfl rfl

end ResumeAnalyzer

namespace ResumeAnalyzer

theorem mem_insertDesc {x z : ResumeRecord} :
    ∀ {l : List ResumeRecord}, z ∈ insertDesc x l ↔ z = x ∨ z ∈ l := by
  intro l
  induction l with
  | nil => simp [insertDesc]
  | cons y ys ih =>
    unfold insertDesc
    split
    · simp [ih]
      tauto
    · simp [ih]

theorem pairwise_insertDesc {x : ResumeRecord} {l : List ResumeRecord}
    (h : l.Pairwise (fun a b => b.createdAt ≤ a.createdAt)) :
    (insertDesc x l).Pairwise (fun a b => b.createdAt ≤ a.createdAt) := by
  induction l with
  | nil => simp [insertDesc]
  | cons y ys ih =>
    unfold insertDesc
    rw [List.pairwise_cons] at h
    obtain ⟨hy, hys⟩ := h
    split
    case isTrue hle =>
      rw [List.pairwise_cons]
      refine ⟨?_, ih hys⟩
      intro z hz
      rcases mem_insertDesc.1 hz with rfl | hz'
      · exact hle
      · exact hy z hz'
    case isFalse hgt =>
      rw [List.pairwise_cons]
      refine ⟨?_, List.pairwise_cons.2 ⟨hy, hys⟩⟩
      intro z hz
      rcases List.mem_cons.1 hz with rfl | hz'
      · exact le_of_not_le hgt
      · exact le_trans (hy z hz') (le_of_not_le hgt)

theorem mem_sortDesc {z : ResumeRecord} :
    ∀ {l : List ResumeRecord}, z ∈ sortDesc l ↔ z ∈ l := by
  intro l
  induction l with
  | nil => simp [sortDesc]
  | cons y ys ih => simp [sortDesc, mem_insertDesc, ih]

theorem pairwise_sortDesc (l : List ResumeRecord) :
    (sortDesc l).Pairwise (fun a b => b.createdAt ≤ a.createdAt) := by
  induction l with
  | nil => simp [sortDesc]
  | cons y ys ih => exact pairwise_insertDesc ih

/-- C7: history retrieval returns only records owned by the requesting
identity, ordered newest-first; and a download request for a record owned
by a different user gets the same 404-equivalent not-found response as a
record id that matches nothing in the store. -/
theorem history_owner_scoped_download_foreign_notfound
    (store : List ResumeRecord) (userId rid : String) :
    (∀ r ∈ historyQuery store userId, r.user = userId) ∧
    (historyQuery store userId).Pairwise (fun a b => b.createdAt ≤ a.createdAt) ∧
    (validObjectId rid = true →
      (∀ r, store.find? (fun x => x.id = rid) = some r → r.user ≠ userId →
        downloadHandler store userId rid = .notFound) ∧
      (store.find? (fun x => x.id = rid) = none →
        downloadHandler store userId rid = .notFound)) := by
  refine ⟨?_, pairwise_sortDesc _, ?_⟩
  · intro r hr
    have h1 : r ∈ store.filter (fun x => x.user = userId) := mem_sortDesc.1 hr
    exact of_decide_eq_true (List.mem_filter.1 h1).2
  · intro hvalid
    constructor
    · intro r hfind hne
      unfold downloadHandler findById
      rw [if_pos hvalid, hfind]
      dsimp only
      rw [if_pos hne]
    · intro hnone
      unfold downloadHandler findById
      rw [if_pos hvalid, hnone]

/-- Witness for C7: user u1 queries the concrete store; downloading u2's
record id answers not-found. -/
theorem history_owner_scoped_download_foreign_notfound_witness :
    (∀ r ∈ historyQuery storeW "u1", r.user = "u1") ∧
    downloadHandler storeW "u1" "507f1f77bcf86cd799439022" = .notFound := by
  refine ⟨(history_owner_scoped_download_foreign_notfound storeW "u1"
      "507f1f77bcf86cd799439022").1, ?_⟩
  exact ((history_owner_scoped_download_foreign_notfound storeW "u1"
      "507f1f77bcf86cd799439022").2.2 (by decide)).1 recB (by decide) (by decide)

/-- C10: a download request whose record id is not a syntactically valid
store identifier throws inside the handler, which answers the
500-equivalent PDF-generation error — a different response from the
404-equivalent not-found used for missing or foreign-owned records. -/
theorem invalid_id_download_pdf_error (store : List ResumeRecord) (userId rid : String)
    (h : validObjectId rid = false) :
    downloadHandler store userId rid = .pdfError ∧
    DownloadResponse.pdfError ≠ DownloadResponse.notFound := by
  refine ⟨?_, by decide⟩
  unfold downloadHandler findById
  rw [if_neg (by simp [h])]

/-- Witness for C10 at the concrete malformed id "abc". -/
theorem invalid_id_download_pdf_error_witness :
    downloadHandler storeW "u1" "abc" = .pdfError :=
  (invalid_id_download_pdf_error storeW "u1" "abc" (by decide)).1

end ResumeAnalyzer

namespace ResumeAnalyzer

theorem collapseAux_all_ws_space (b : Bool) (l : List Char) :
    ∀ c ∈ collapseAux b l, isJsWhitespace c = true → c = ' ' := by
  induction l generalizing b with
  | nil => simp [collapseAux]
  | cons d ds ih =>
    intro c hc hws
    by_cases hd : isJsWhitespace d
    · cases b with
      | true =>
        rw [show collapseAux true (d :: ds) = collapseAux true ds from by
          simp [collapseAux, hd]] at hc
        exact ih true c hc hws
      | false =>
        rw [show collapseAux false (d :: ds) = ' ' :: collapseAux true ds from by
          simp [collapseAux, hd]] at hc
        rcases List.mem_cons.1 hc with rfl | h2
        · rfl
        · exact ih true c h2 hws
    · rw [show collapseAux b (d :: ds) = d :: collapseAux false ds from by
        simp [collapseAux, hd]] at hc
      rcases List.mem_cons.1 hc with rfl | h2
      · exact absurd hws (by simpa using hd)
      · exact ih false c h2 hws

theorem collapseAux_true_head (l : List Char) :
    ∀ c, (collapseAux true l).head? = some c → isJsWhitespace c = false := by
  induction l with
  | nil => intro c hc; simp [collapseAux] at hc
  | cons d ds ih =>
    intro c hc
    by_cases hd : isJsWhitespace d
    · rw [show collapseAux true (d :: ds) = collapseAux true ds from by
        simp [collapseAux, hd]] at hc
      exact ih c hc
    · rw [show collapseAux true (d :: ds) = d :: collapseAux false ds from by
        simp [collapseAux, hd]] at hc
      simp only [List.head?_cons, Option.some.injEq] at hc
      rw [← hc]
      simpa using hd

theorem collapseAux_chain (l : List Char) : ∀ b,
    (collapseAux b l).Chain'
      (fun a c => isJsWhitespace a = false ∨ isJsWhitespace c = false) := by
  induction l with
  | nil => intro b; simp [collapseAux]
  | cons d ds ih =>
    intro b
    by_cases hd : isJsWhitespace d
    · cases b with
      | true =>
        rw [show collapseAux true (d :: ds) = collapseAux true ds from by
          simp [collapseAux, hd]]
        exact ih true
      | false =>
        rw [show collapseAux false (d :: ds) = ' ' :: collapseAux true ds from by
          simp [collapseAux, hd]]
        rw [List.chain'_cons']
        refine ⟨?_, ih true⟩
        intro y hy
        exact Or.inr (collapseAux_true_head ds y (Option.mem_def.1 hy))
    · rw [show collapseAux b (d :: ds) = d :: collapseAux false ds from by
        simp [collapseAux, hd]]
      rw [List.chain'_cons']
      refine ⟨?_, ih false⟩
      intro y hy
      exact Or.inl (by simpa using hd)

theorem collapseAux_eq_self (l : List Char)
    (hgood : ∀ c ∈ l, isJsWhitespace c = true → c = ' ')
    (hchain : l.Chain'
      (fun a c => isJsWhitespace a = false ∨ isJsWhitespace c = false)) :
    collapseAux false l = l ∧
    ((∀ c, l.head? = some c → isJsWhitespace c = false) → collapseAux true l = l) := by
  induction l with
  | nil => exact ⟨rfl, fun _ => rfl⟩
  | cons d ds ih =>
    have hgood' : ∀ c ∈ ds, isJsWhitespace c = true → c = ' ' :=
      fun c hc => hgood c (List.mem_cons_of_mem d hc)
    obtain ⟨ihF, ihT⟩ := ih hgood' hchain.tail
    by_cases hd : isJsWhitespace d
    · have hd' : d = ' ' := hgood d (List.mem_cons_self d ds) hd
      constructor
      · rw [show collapseAux false (d :: ds) = ' ' :: collapseAux true ds from by
          simp [collapseAux, hd]]
        have hhead : ∀ c, ds.head? = some c → isJsWhitespace c = false := by
          intro c hc
          rcases (List.chain'_cons'.1 hchain).1 c (Option.mem_def.2 hc) with h1 | h2
          · rw [hd] at h1; cases h1
          · exact h2
        rw [ihT hhead, hd']
      · intro hh
        have h0 := hh d rfl
        rw [hd] at h0
        cases h0
    · constructor
      · rw [show collapseAux false (d :: ds) = d :: collapseAux false ds from by
          simp [collapseAux, hd], ihF]
      · intro _
        rw [show collapseAux true (d :: ds) = d :: collapseAux false ds from by
          simp [collapseAux, hd], ihF]

theorem dropWhile_head_not (p : Char → Bool) (l : List Char) :
    ∀ c, (l.dropWhile p).head? = some c → p c = false := by
  induction l with
  | nil => intro c hc; simp at hc
  | cons d ds ih =>
    intro c hc
    by_cases hd : p d
    · rw [show (d :: ds).dropWhile p = ds.dropWhile p from by
        simp [List.dropWhile_cons, hd]] at hc
      exact ih c hc
    · rw [show (d :: ds).dropWhile p = d :: ds from by
        simp [List.dropWhile_cons, hd]] at hc
      simp only [List.head?_cons, Option.some.injEq] at hc
      rw [← hc]
      simpa using hd

theorem dropWhile_eq_self_of_head (p : Char → Bool) (l : List Char)
    (h : ∀ c, l.head? = some c → p c = false) : l.dropWhile p = l := by
  cases l with
  | nil => rfl
  | cons d ds =>
    have h0 := h d rfl
    simp [List.dropWhile_cons, h0]

theorem dropWhile_getLast (p : Char → Bool) (l : List Char)
    (hne : l.dropWhile p ≠ []) : (l.dropWhile p).getLast? = l.getLast? := by
  obtain ⟨u, hu⟩ := List.dropWhile_suffix (l := l) p
  conv_rhs => rw [← hu]
  exact (List.getLast?_append_of_ne_nil u hne).symm

theorem trimWS_head (l : List Char) :
    ∀ c, (trimWS l).head? = some c → isJsWhitespace c = false := by
  intro c hc
  unfold trimWS dropLeadingWS at hc
  rw [List.head?_reverse] at hc
  have hne : ((l.dropWhile isJsWhitespace).reverse.dropWhile isJsWhitespace) ≠ [] := by
    intro h0
    rw [h0] at hc
    simp at hc
  rw [dropWhile_getLast _ _ hne, List.getLast?_reverse] at hc
  exact dropWhile_head_not _ _ c hc

theorem trimWS_getLast (l : List Char) :
    ∀ c, (trimWS l).getLast? = some c → isJsWhitespace c = false := by
  intro c hc
  unfold trimWS dropLeadingWS at hc
  rw [List.getLast?_reverse] at hc
  exact dropWhile_head_not _ _ c hc

theorem trimWS_eq_self (l : List Char)
    (hh : ∀ c, l.head? = some c → isJsWhitespace c = false)
    (hl : ∀ c, l.getLast? = some c → isJsWhitespace c = false) :
    trimWS l = l := by
  unfold trimWS dropLeadingWS
  rw [dropWhile_eq_self_of_head _ _ hh]
  rw [dropWhile_eq_self_of_head _ _ (by
    intro c hc
    rw [List.head?_reverse] at hc
    exact hl c hc)]
  exact List.reverse_reverse l

theorem trimWS_good (l : List Char)
    (hg : ∀ c ∈ l, isJsWhitespace c = true → c = ' ') :
    ∀ c ∈ trimWS l, isJsWhitespace c = true → c = ' ' := by
  intro c hc
  apply hg
  unfold trimWS dropLeadingWS at hc
  rw [List.mem_reverse] at hc
  have h2 := (List.dropWhile_suffix _).sublist.subset hc
  rw [List.mem_reverse] at h2
  exact (List.dropWhile_suffix _).sublist.subset h2

theorem trimWS_chain (l : List Char)
    (hc : l.Chain' (fun a b => isJsWhitespace a = false ∨ isJsWhitespace b = false)) :
    (trimWS l).Chain'
      (fun a b => isJsWhitespace a = false ∨ isJsWhitespace b = false) := by
  unfold trimWS dropLeadingWS
  have h1 := hc.suffix (List.dropWhile_suffix (l := l) isJsWhitespace)
  have h2 : ((l.dropWhile isJsWhitespace).reverse).Chain'
      (fun a b => isJsWhitespace a = false ∨ isJsWhitespace b = false) := by
    rw [List.chain'_reverse]
    exact h1.imp fun _ _ h => h.symm
  have h3 := h2.suffix
    (List.dropWhile_suffix (l := (l.dropWhile isJsWhitespace).reverse) isJsWhitespace)
  rw [List.chain'_reverse]
  exact h3.imp fun _ _ h => h.symm

/-- C8: the controller's text normalization — collapse every maximal
whitespace run to one ASCII space, then trim — is idempotent: normalizing
already-normalized text returns it unchanged. -/
theorem normalizeText_idempotent (s : String) :
    normalizeText (normalizeText s) = normalizeText s := by
  show (⟨trimWS (collapseWS (trimWS (collapseWS s.data)))⟩ : String) =
    ⟨trimWS (collapseWS s.data)⟩
  unfold collapseWS
  have hg : ∀ c ∈ trimWS (collapseAux false s.data), isJsWhitespace c = true → c = ' ' :=
    trimWS_good _ (collapseAux_all_ws_space false s.data)
  have hch := trimWS_chain _ (collapseAux_chain s.data false)
  have hcoll := (collapseAux_eq_self (trimWS (collapseAux false s.data)) hg hch).1
  rw [hcoll, trimWS_eq_self _ (trimWS_head (collapseAux false s.data))
    (trimWS_getLast (collapseAux false s.data))]

end ResumeAnalyzer
